import Mathlib

/-!
Shallow embedding of the training-session domain
(`src/shared/types.ts`, `src/training/domain/types.ts`,
`src/training/domain/functions.ts`, `src/training/application/service.ts`,
`src/training/infrastructure/repository.ts`).

Conventions:
* JavaScript `Date` values are modelled as `Int` (milliseconds since the
  epoch); `Date` comparison in the source coerces to this number.
* String lengths use Lean `String.length`; the source uses JavaScript
  `String.prototype.length` (UTF-16 code units), which agrees on the
  Basic Multilingual Plane characters exercised here.
* The two effect inputs of `createTraining` — the random bytes consumed by
  `uuidv4()` and the wall clock read by `new Date()` — are passed in
  explicitly as `bytes : List Nat` and `now : Int`.
-/

set_option autoImplicit false

namespace TrainingModel

/-- `Result<T>` from `src/shared/types.ts`: success holding a value, or
failure holding a human-readable message. -/
inductive Result (α : Type) where
  | success (value : α)
  | failure (error : String)
  deriving DecidableEq, Repr

/-- `AppError` from `src/shared/types.ts`: tagged union of
`ValidationError` and `DomainError`, each carrying a message. -/
inductive AppError where
  | validationError (message : String)
  | domainError (message : String)
  deriving DecidableEq, Repr

/-- `TrainingStatusSchema` from `src/training/domain/types.ts`: a
discriminated union on the `type` field with exactly the three variants
declared there — `DRAFT { createdAt }`, `PUBLISHED { publishedAt }` and
`CANCELLED { cancelledAt, reason }`. -/
inductive TrainingStatus where
  | draft (createdAt : Int)
  | published (publishedAt : Int)
  | cancelled (cancelledAt : Int) (reason : String)
  deriving DecidableEq, Repr

/-- The `type` discriminator string of a status value, as written in
`TrainingStatusSchema`. -/
def statusTag : TrainingStatus → String
  | TrainingStatus.draft _ => "DRAFT"
  | TrainingStatus.published _ => "PUBLISHED"
  | TrainingStatus.cancelled _ _ => "CANCELLED"

/-- The `Training` record shape from `TrainingSchema` in
`src/training/domain/types.ts`. -/
structure Training where
  id : String
  title : String
  description : String
  dateTime : Int
  location : String
  capacity : Int
  registeredCount : Int
  status : TrainingStatus
  createdAt : Int
  updatedAt : Int
  deriving DecidableEq, Repr

/-- The input record of `createTraining` in
`src/training/domain/functions.ts`. -/
structure CreateTrainingData where
  title : String
  description : String
  dateTime : Int
  location : String
  capacity : Int
  deriving DecidableEq, Repr

/-! ### Identifier generator (`uuidv4` from the `uuid` package) -/

/-- One lowercase hexadecimal digit character for `n < 16`. -/
def hexChar (n : Nat) : Char :=
  if n < 10 then Char.ofNat (48 + n) else Char.ofNat (87 + n)

/-- The two lowercase hex digits of a byte, as produced by the `uuid`
package's byte-to-hex table. -/
def byteHexChars (n : Nat) : List Char :=
  [hexChar (n / 16 % 16), hexChar (n % 16)]

/-- The `i`-th byte used by `uuidv4`: the `i`-th random byte, except that
byte 6 is masked to `0x4?` (version 4) and byte 8 to `0b10??????`
(RFC 4122 variant), exactly as the `uuid` package's `v4` does. -/
def uuidByte (bs : List Nat) (i : Nat) : Nat :=
  let b := bs.getD i 0 % 256
  if i = 6 then (b &&& 15) ||| 64
  else if i = 8 then (b &&& 63) ||| 128
  else b

/-- The character list of the canonical textual form produced by
`uuidv4`: 16 bytes rendered as lowercase hex pairs with dashes after
bytes 3, 5, 7 and 9 (the `8-4-4-4-12` layout). -/
def uuidChars (bs : List Nat) : List Char :=
  byteHexChars (uuidByte bs 0) ++ byteHexChars (uuidByte bs 1) ++
  byteHexChars (uuidByte bs 2) ++ byteHexChars (uuidByte bs 3) ++
  ['-'] ++
  byteHexChars (uuidByte bs 4) ++ byteHexChars (uuidByte bs 5) ++
  ['-'] ++
  byteHexChars (uuidByte bs 6) ++ byteHexChars (uuidByte bs 7) ++
  ['-'] ++
  byteHexChars (uuidByte bs 8) ++ byteHexChars (uuidByte bs 9) ++
  ['-'] ++
  byteHexChars (uuidByte bs 10) ++ byteHexChars (uuidByte bs 11) ++
  byteHexChars (uuidByte bs 12) ++ byteHexChars (uuidByte bs 13) ++
  byteHexChars (uuidByte bs 14) ++ byteHexChars (uuidByte bs 15)

/-- `createTrainingId` / `uuidv4()` from
`src/training/domain/functions.ts`, as a function of the 16 random bytes
it consumes. -/
def uuidV4 (bs : List Nat) : String :=
  String.mk (uuidChars bs)

/-- Lowercase hexadecimal digit test. -/
def isLowerHexDigit (c : Char) : Bool :=
  (decide (48 ≤ c.toNat) && decide (c.toNat ≤ 57)) ||
  (decide (97 ≤ c.toNat) && decide (c.toNat ≤ 102))

/-- Hexadecimal digit test, either case (zod's uuid regex carries the `i`
flag). -/
def isHexDigit (c : Char) : Bool :=
  isLowerHexDigit c ||
  (decide (65 ≤ c.toNat) && decide (c.toNat ≤ 70))

/-- Checks that a character list has the canonical UUID textual layout:
exactly 36 characters, dashes at positions 8, 13, 18 and 23, and every
other character accepted by `hexOk` (the `8-4-4-4-12` hex-group shape). -/
def uuidCharsOk (hexOk : Char → Bool) : List Char → Bool
  | c0 :: c1 :: c2 :: c3 :: c4 :: c5 :: c6 :: c7 :: d0 ::
    c8 :: c9 :: c10 :: c11 :: d1 ::
    c12 :: c13 :: c14 :: c15 :: d2 ::
    c16 :: c17 :: c18 :: c19 :: d3 ::
    c20 :: c21 :: c22 :: c23 :: c24 :: c25 :: c26 :: c27 ::
    c28 :: c29 :: c30 :: c31 :: [] =>
    decide (d0 = '-') && decide (d1 = '-') && decide (d2 = '-') && decide (d3 = '-') &&
    hexOk c0 && hexOk c1 && hexOk c2 && hexOk c3 && hexOk c4 && hexOk c5 &&
    hexOk c6 && hexOk c7 && hexOk c8 && hexOk c9 && hexOk c10 && hexOk c11 &&
    hexOk c12 && hexOk c13 && hexOk c14 && hexOk c15 && hexOk c16 && hexOk c17 &&
    hexOk c18 && hexOk c19 && hexOk c20 && hexOk c21 && hexOk c22 && hexOk c23 &&
    hexOk c24 && hexOk c25 && hexOk c26 && hexOk c27 && hexOk c28 && hexOk c29 &&
    hexOk c30 && hexOk c31
  | _ => false

/-- Canonical UUID textual form with lowercase hex groups, the form
produced by `uuidv4` and asserted by the repository's own test
`/^[0-9a-f]{8}-[0-9a-f]{4}-[0-9a-f]{4}-[0-9a-f]{4}-[0-9a-f]{12}$/`. -/
def isCanonicalUuid (s : String) : Bool :=
  uuidCharsOk isLowerHexDigit s.data

/-- The `z.string().uuid()` check of `TrainingSchema` (`id` field): the
`8-4-4-4-12` hex-group shape, case-insensitive. -/
def isUuidZod (s : String) : Bool :=
  uuidCharsOk isHexDigit s.data

/-! ### Schema validation (`TrainingSchema.safeParse`) -/

/-- Validation of a status value against `TrainingStatusSchema`: each
variant's date payloads are `z.date()` and the `CANCELLED` variant's
`reason` is a bare `z.string()` — no minimum length — so no payload check
can fail on a well-typed value. Returns the first issue message, or
`none` when the value passes. -/
def trainingStatusFirstError : TrainingStatus → Option String
  | TrainingStatus.draft _ => none
  | TrainingStatus.published _ => none
  | TrainingStatus.cancelled _ _ => none

/-- `TrainingSchema.safeParse` from `src/training/domain/types.ts`,
reduced to the message of the first failing field in declaration order
(`id`, `title`, `description`, `dateTime`, `location`, `capacity`,
`registeredCount`, `status`, `createdAt`, `updatedAt`) — the message the
source reads off as `result.error.errors[0]?.message`. `dateTime`,
`createdAt` and `updatedAt` are bare `z.date()` checks and cannot fail on
a well-typed value. -/
def trainingSchemaFirstError (t : Training) : Option String :=
  if isUuidZod t.id = false then some "Invalid uuid"
  else if t.title.length < 1 then some "タイトルは必須です"
  else if 100 < t.title.length then some "タイトルは100文字以内で入力してください"
  else if t.description.length < 1 then some "説明は必須です"
  else if 1000 < t.description.length then some "説明は1000文字以内で入力してください"
  else if t.location.length < 1 then some "場所は必須です"
  else if 100 < t.location.length then some "場所は100文字以内で入力してください"
  else if t.capacity < 1 then some "定員は1名以上で設定してください"
  else if 1000 < t.capacity then some "定員は1000名以下で設定してください"
  else if t.registeredCount < 0 then some "Number must be greater than or equal to 0"
  else trainingStatusFirstError t.status

/-- The record literal built inside `createTraining` before schema
validation: generated id, the five input fields, `registeredCount: 0`,
`status: { type: 'DRAFT', createdAt: now }`, `createdAt: now`,
`updatedAt: now`. -/
def builtTraining (id : String) (now : Int) (d : CreateTrainingData) : Training :=
  { id := id
    title := d.title
    description := d.description
    dateTime := d.dateTime
    location := d.location
    capacity := d.capacity
    registeredCount := 0
    status := TrainingStatus.draft now
    createdAt := now
    updatedAt := now }

/-- `createTraining` from `src/training/domain/functions.ts` (the current
version, in which the past-date check is an explicit guard inside the
function rather than part of the static schema): reads `now`, rejects
`dateTime <= now` with the past-date message, builds the record with a
fresh `uuidv4()` id, and runs `TrainingSchema.safeParse`, returning the
parsed value on success and the first issue message on failure. -/
def createTraining (bytes : List Nat) (now : Int) (d : CreateTrainingData) :
    Result Training :=
  if d.dateTime ≤ now then Result.failure "過去の日時は指定できません"
  else
    let t := builtTraining (uuidV4 bytes) now d
    match trainingSchemaFirstError t with
    | some msg => Result.failure msg
    | none => Result.success t

/-! ### Entity lifecycle transitions -/

/-- Modelled from the spec: the `publish` transition of §4.3 is not
implemented in any file under src/ (only `createTraining` exists there);
per the spec it is "allowed only from Draft; sets status =
Published{publishedAt: now}; fails with a domain-error message (not a
validation message) of the form \x22operation not allowed in current
state: <state>\x22 otherwise", producing a new snapshot with `updatedAt`
refreshed. It is stated over the status type actually declared in
`src/training/domain/types.ts`. -/
def publish (t : Training) (now : Int) : Result Training :=
  match t.status with
  | TrainingStatus.draft _ =>
      Result.success { t with status := TrainingStatus.published now, updatedAt := now }
  | s => Result.failure ("operation not allowed in current state: " ++ statusTag s)

/-! ### Command pipeline (`src/training/application/service.ts`) -/

/-- `validateAndCreateTraining` from
`src/training/application/service.ts`: runs `createTraining` and lifts
its outcome into `Either<AppError, Training>` — `right` on success,
`left(validationError(message))` on failure. -/
def validateAndCreateTraining (bytes : List Nat) (now : Int)
    (cmd : CreateTrainingData) : Except AppError Training :=
  match createTraining bytes now cmd with
  | Result.success t => Except.ok t
  | Result.failure e => Except.error (AppError.validationError e)

/-- `createTrainingHandler` from
`src/training/application/service.ts`: the `TaskEither` pipeline
`pipe(fromEither(validateAndCreateTraining(command)), chain(save))`,
modelled by explicit state passing over the storage collaborator's state
`σ`. The collaborator's `save` is an arbitrary function, as the handler
is written against the `TrainingRepository` interface. -/
def createTrainingHandler {σ : Type}
    (save : Training → σ → Except AppError Training × σ)
    (bytes : List Nat) (now : Int) (cmd : CreateTrainingData) (st : σ) :
    Except AppError Training × σ :=
  match validateAndCreateTraining bytes now cmd with
  | Except.error e => (Except.error e, st)
  | Except.ok t => save t st

/-! ### In-memory repository (`src/training/infrastructure/repository.ts`)

`InMemoryTrainingRepository` keeps a JavaScript `Map<string, Training>`.
A JS `Map` is modelled as an insertion-ordered association list:
`Map.prototype.set` overwrites in place when the key exists and appends
otherwise, `get` returns the value at the key, and `values()` iterates in
insertion order. -/

/-- The `Map<string, Training>` state of `InMemoryTrainingRepository`. -/
abbrev RepoState : Type := List (String × Training)

/-- JS `Map.prototype.set`: replace in place when the key is present,
else append at the end. -/
def mapSet : RepoState → String → Training → RepoState
  | [], k, v => [(k, v)]
  | (k', v') :: rest, k, v =>
      if k' = k then (k, v) :: rest else (k', v') :: mapSet rest k v

/-- JS `this.trainings.get(id) || null`: the value stored at the key, or
absence. -/
def mapGet : RepoState → String → Option Training
  | [], _ => none
  | (k', v') :: rest, k => if k' = k then some v' else mapGet rest k

/-- JS `Array.from(this.trainings.values())`. -/
def mapValues (st : RepoState) : List Training :=
  st.map (fun kv => kv.2)

/-- The keys currently stored in the map. -/
def mapKeys (st : RepoState) : List String :=
  st.map (fun kv => kv.1)

/-- `save` of `InMemoryTrainingRepository`: stores the entity under its
id and answers `TE.right(training)`. -/
def repoSave (t : Training) (st : RepoState) :
    Except AppError Training × RepoState :=
  (Except.ok t, mapSet st t.id t)

/-- `findById` of `InMemoryTrainingRepository`: answers
`TE.right(this.trainings.get(id) || null)` and leaves the map unchanged. -/
def repoFindById (id : String) (st : RepoState) :
    Except AppError (Option Training) × RepoState :=
  (Except.ok (mapGet st id), st)

/-- `findAll` of `InMemoryTrainingRepository`: answers
`TE.right(Array.from(this.trainings.values()))` and leaves the map
unchanged. -/
def repoFindAll (st : RepoState) :
    Except AppError (List Training) × RepoState :=
  (Except.ok (mapValues st), st)

/-- The command pipeline wired to the in-memory repository, as the
repository's tests run it. -/
def handleCreate (bytes : List Nat) (now : Int) (cmd : CreateTrainingData)
    (st : RepoState) : Except AppError Training × RepoState :=
  createTrainingHandler repoSave bytes now cmd st

/-- Storing a list of entities one after another through `repoSave`. -/
def saveMany (ts : List Training) (st : RepoState) : RepoState :=
  match ts with
  | [] => st
  | t :: rest => saveMany rest (mapSet st t.id t)

/-! ### Field-rule predicates (the bounds written in `TrainingSchema`) -/

/-- Title rule of `TrainingSchema`: 1–100 characters. -/
def titleOk (d : CreateTrainingData) : Bool :=
  1 ≤ d.title.length && d.title.length ≤ 100

/-- Description rule of `TrainingSchema`: 1–1000 characters. -/
def descriptionOk (d : CreateTrainingData) : Bool :=
  1 ≤ d.description.length && d.description.length ≤ 1000

/-- Location rule of `TrainingSchema`: 1–100 characters. -/
def locationOk (d : CreateTrainingData) : Bool :=
  1 ≤ d.location.length && d.location.length ≤ 100

/-- Capacity rule of `TrainingSchema`: an integer in [1, 1000]. -/
def capacityOk (d : CreateTrainingData) : Bool :=
  1 ≤ d.capacity && d.capacity ≤ 1000

/-- All four bounded-field rules of `TrainingSchema` together. -/
def fieldsOk (d : CreateTrainingData) : Bool :=
  titleOk d && descriptionOk d && locationOk d && capacityOk d

/-- Success-channel test on `Result`. -/
def Result.isSuccess {α : Type} : Result α → Bool
  | Result.success _ => true
  | Result.failure _ => false

/-! ### Concrete sample values (used by witnesses) -/

/-- A concrete valid command: every bounded field in range. -/
def sampleData : CreateTrainingData :=
  { title := "A", description := "B", dateTime := 10, location := "C", capacity := 1 }

/-- The entity `createTraining` builds from `sampleData` at time 0 with
zeroed random bytes. -/
def sampleDraft : Training :=
  builtTraining (uuidV4 []) 0 sampleData

/-- `sampleDraft` moved to the `PUBLISHED` status. -/
def samplePublished : Training :=
  { sampleDraft with status := TrainingStatus.published 1 }

/-! ### Supporting lemmas -/

theorem hexChar_isLowerHex (m : Nat) (hm : m < 16) :
    isLowerHexDigit (hexChar m) = true := by
  interval_cases m <;> decide

theorem hexChar_isHex (m : Nat) (hm : m < 16) :
    isHexDigit (hexChar m) = true := by
  interval_cases m <;> decide

theorem lowerHex_mod (n : Nat) : isLowerHexDigit (hexChar (n % 16)) = true :=
  hexChar_isLowerHex _ (Nat.mod_lt _ (by decide))

theorem hex_mod (n : Nat) : isHexDigit (hexChar (n % 16)) = true :=
  hexChar_isHex _ (Nat.mod_lt _ (by decide))

/-- Every identifier produced by `uuidv4` has the canonical lowercase
`8-4-4-4-12` textual form, whatever the 16 random bytes were. -/
theorem uuidV4_canonical (bs : List Nat) : isCanonicalUuid (uuidV4 bs) = true := by
  simp [isCanonicalUuid, uuidV4, uuidChars, byteHexChars, uuidCharsOk, lowerHex_mod]

/-- Every identifier produced by `uuidv4` passes the `z.string().uuid()`
check of `TrainingSchema`. -/
theorem uuidV4_zod (bs : List Nat) : isUuidZod (uuidV4 bs) = true := by
  simp [isUuidZod, uuidV4, uuidChars, byteHexChars, uuidCharsOk, hex_mod]

/-- `TrainingSchema.safeParse` reports no issue on a record whose id has
the uuid shape, whose bounded fields are in range, and whose registered
count is non-negative. -/
theorem trainingSchemaFirstError_eq_none (t : Training)
    (hid : isUuidZod t.id = true)
    (h1 : 1 ≤ t.title.length) (h2 : t.title.length ≤ 100)
    (h3 : 1 ≤ t.description.length) (h4 : t.description.length ≤ 1000)
    (h5 : 1 ≤ t.location.length) (h6 : t.location.length ≤ 100)
    (h7 : 1 ≤ t.capacity) (h8 : t.capacity ≤ 1000)
    (h9 : 0 ≤ t.registeredCount) :
    trainingSchemaFirstError t = none := by
  unfold trainingSchemaFirstError
  rw [if_neg (by simp [hid]), if_neg (not_lt.mpr h1), if_neg (not_lt.mpr h2),
      if_neg (not_lt.mpr h3), if_neg (not_lt.mpr h4), if_neg (not_lt.mpr h5),
      if_neg (not_lt.mpr h6), if_neg (not_lt.mpr h7), if_neg (not_lt.mpr h8),
      if_neg (not_lt.mpr h9)]
  cases t.status <;> rfl

/-- Unpacking of `fieldsOk` into the eight numeric bounds. -/
theorem fieldsOk_iff (d : CreateTrainingData) :
    fieldsOk d = true ↔
      (1 ≤ d.title.length ∧ d.title.length ≤ 100) ∧
      (1 ≤ d.description.length ∧ d.description.length ≤ 1000) ∧
      (1 ≤ d.location.length ∧ d.location.length ≤ 100) ∧
      (1 ≤ d.capacity ∧ d.capacity ≤ 1000) := by
  simp [fieldsOk, titleOk, descriptionOk, locationOk, capacityOk, Bool.and_eq_true,
    decide_eq_true_eq, and_assoc]

/-- On a strictly future date the past-date guard is skipped and
`createTraining` is decided by the schema check on the built record. -/
theorem createTraining_of_future (bs : List Nat) (now : Int) (d : CreateTrainingData)
    (h : now < d.dateTime) :
    createTraining bs now d =
      (match trainingSchemaFirstError (builtTraining (uuidV4 bs) now d) with
       | some msg => Result.failure msg
       | none => Result.success (builtTraining (uuidV4 bs) now d)) := by
  unfold createTraining
  rw [if_neg (by omega)]

/-- `createTraining` succeeds, with the built record as value, whenever
the date is strictly future and the bounded fields are in range. -/
theorem createTraining_success (bs : List Nat) (now : Int) (d : CreateTrainingData)
    (hdt : now < d.dateTime) (hok : fieldsOk d = true) :
    createTraining bs now d = Result.success (builtTraining (uuidV4 bs) now d) := by
  obtain ⟨⟨h1, h2⟩, ⟨h3, h4⟩, ⟨h5, h6⟩, h7, h8⟩ := (fieldsOk_iff d).mp hok
  have hnone : trainingSchemaFirstError (builtTraining (uuidV4 bs) now d) = none := by
    apply trainingSchemaFirstError_eq_none (builtTraining (uuidV4 bs) now d) (uuidV4_zod bs)
      h1 h2 h3 h4 h5 h6 h7 h8
    exact le_rfl
  rw [createTraining_of_future bs now d hdt, hnone]

set_option maxHeartbeats 1000000 in
/-- Full characterization of a passing `TrainingSchema.safeParse`. -/
theorem trainingSchemaFirstError_none_iff (t : Training) :
    trainingSchemaFirstError t = none ↔
      isUuidZod t.id = true ∧ 1 ≤ t.title.length ∧ t.title.length ≤ 100 ∧
      1 ≤ t.description.length ∧ t.description.length ≤ 1000 ∧
      1 ≤ t.location.length ∧ t.location.length ≤ 100 ∧
      1 ≤ t.capacity ∧ t.capacity ≤ 1000 ∧ 0 ≤ t.registeredCount := by
  constructor
  · intro h
    unfold trainingSchemaFirstError at h
    split_ifs at h with hA hB hC hD hE hF hG hH hI hJ <;>
      try simp at h
    have hA' : isUuidZod t.id = true := by
      revert hA; cases isUuidZod t.id <;> simp
    exact ⟨hA', by omega, by omega, by omega, by omega, by omega, by omega,
      by omega, by omega, by omega⟩
  · rintro ⟨hA, h1, h2, h3, h4, h5, h6, h7, h8, h9⟩
    exact trainingSchemaFirstError_eq_none t hA h1 h2 h3 h4 h5 h6 h7 h8 h9

/-- On a strictly future date, `createTraining` succeeds exactly when the
four bounded-field rules hold. -/
theorem createTraining_isSuccess_iff (bytes : List Nat) (now : Int)
    (d : CreateTrainingData) (hdt : now < d.dateTime) :
    Result.isSuccess (createTraining bytes now d) = true ↔ fieldsOk d = true := by
  rw [createTraining_of_future bytes now d hdt]
  rcases h : trainingSchemaFirstError (builtTraining (uuidV4 bytes) now d) with _ | msg
  · have hc := (trainingSchemaFirstError_none_iff _).mp h
    simp only [builtTraining] at hc
    constructor
    · intro _
      rw [fieldsOk_iff]
      exact ⟨⟨hc.2.1, hc.2.2.1⟩, ⟨hc.2.2.2.1, hc.2.2.2.2.1⟩,
        ⟨hc.2.2.2.2.2.1, hc.2.2.2.2.2.2.1⟩, hc.2.2.2.2.2.2.2.1, hc.2.2.2.2.2.2.2.2.1⟩
    · intro _; rfl
  · constructor
    · intro hfalse; exact absurd hfalse (by simp [Result.isSuccess])
    · intro hok
      obtain ⟨⟨h1, h2⟩, ⟨h3, h4⟩, ⟨h5, h6⟩, h7, h8⟩ := (fieldsOk_iff d).mp hok
      have hnone : trainingSchemaFirstError (builtTraining (uuidV4 bytes) now d) = none := by
        apply trainingSchemaFirstError_eq_none (builtTraining (uuidV4 bytes) now d)
          (uuidV4_zod bytes) h1 h2 h3 h4 h5 h6 h7 h8
        exact le_rfl
      rw [hnone] at h
      exact Option.noConfusion h

/-- An empty title is reported with the title-required message whenever
the date guard passes, whatever the other fields hold. -/
theorem createTraining_empty_title (bytes : List Nat) (now : Int)
    (cmd : CreateTrainingData) (ht : cmd.title = "") (hdt : now < cmd.dateTime) :
    createTraining bytes now cmd = Result.failure "タイトルは必須です" := by
  rw [createTraining_of_future bytes now cmd hdt]
  have hmsg : trainingSchemaFirstError (builtTraining (uuidV4 bytes) now cmd) =
      some "タイトルは必須です" := by
    unfold trainingSchemaFirstError
    rw [if_neg (by simp [builtTraining, uuidV4_zod bytes]),
        if_pos (by simp [builtTraining, ht])]
  rw [hmsg]

/-! ### Lemmas about the JS `Map` model -/

theorem mapGet_mapSet_self (st : RepoState) (k : String) (v : Training) :
    mapGet (mapSet st k v) k = some v := by
  induction st with
  | nil => simp [mapSet, mapGet]
  | cons kv rest ih =>
      obtain ⟨k', v'⟩ := kv
      by_cases h : k' = k
      · subst h; simp [mapSet, mapGet]
      · simp [mapSet, mapGet, h, ih]

theorem mapSet_mapSet (st : RepoState) (k : String) (v : Training) :
    mapSet (mapSet st k v) k v = mapSet st k v := by
  induction st with
  | nil => simp [mapSet]
  | cons kv rest ih =>
      obtain ⟨k', v'⟩ := kv
      by_cases h : k' = k
      · subst h; simp [mapSet]
      · simp [mapSet, h, ih]

theorem mapSet_fresh (st : RepoState) (k : String) (v : Training)
    (h : k ∉ mapKeys st) :
    mapSet st k v = st ++ [(k, v)] := by
  induction st with
  | nil => rfl
  | cons kv rest ih =>
      obtain ⟨k', v'⟩ := kv
      simp only [mapKeys, List.map_cons, List.mem_cons] at h
      push_neg at h
      have h1 : k' ≠ k := fun hh => h.1 hh.symm
      simp [mapSet, h1, ih h.2, mapKeys]

theorem mapGet_eq_none (st : RepoState) (k : String) (h : k ∉ mapKeys st) :
    mapGet st k = none := by
  induction st with
  | nil => rfl
  | cons kv rest ih =>
      obtain ⟨k', v'⟩ := kv
      simp only [mapKeys, List.map_cons, List.mem_cons] at h
      push_neg at h
      have h1 : k' ≠ k := fun hh => h.1 hh.symm
      simp [mapGet, h1, ih h.2]

theorem saveMany_length (ts : List Training) :
    ∀ st : RepoState, (ts.map Training.id).Nodup →
      (∀ t ∈ ts, t.id ∉ mapKeys st) →
      (saveMany ts st).length = st.length + ts.length := by
  induction ts with
  | nil => intro st _ _; simp [saveMany]
  | cons t rest ih =>
      intro st hnd hfresh
      have hfr : t.id ∉ mapKeys st := hfresh t (by simp)
      have hset : mapSet st t.id t = st ++ [(t.id, t)] := mapSet_fresh st t.id t hfr
      have hkeys : mapKeys (mapSet st t.id t) = mapKeys st ++ [t.id] := by
        rw [hset]; simp [mapKeys]
      simp only [List.map_cons, List.nodup_cons] at hnd
      have hrest : ∀ u ∈ rest, u.id ∉ mapKeys (mapSet st t.id t) := by
        intro u hu
        rw [hkeys]
        simp only [List.mem_append, List.mem_singleton]
        push_neg
        refine ⟨hfresh u (by simp [hu]), ?_⟩
        intro heq
        exact hnd.1 (heq ▸ List.mem_map_of_mem Training.id hu)
      have := ih (mapSet st t.id t) hnd.2 hrest
      simp only [saveMany]
      rw [this, hset]
      simp
      omega

/-! ### Claims -/

/-- C1: for every input whose `dateTime` is before or equal to the
wall-clock `now` read at the moment of the call, `createTraining` returns
a failure carrying the past-date message; for every input whose
`dateTime` is strictly after `now` and whose other fields satisfy their
rules, the call returns success. -/
theorem claim_C1_create_past_date (bytes : List Nat) (now : Int)
    (d : CreateTrainingData) :
    (d.dateTime ≤ now →
      createTraining bytes now d = Result.failure "過去の日時は指定できません")
    ∧ (now < d.dateTime → fieldsOk d = true →
      createTraining bytes now d =
        Result.success (builtTraining (uuidV4 bytes) now d)) := by
  constructor
  · intro h
    unfold createTraining
    rw [if_pos h]
  · intro hdt hok
    exact createTraining_success bytes now d hdt hok

/-- Witness for C1: a past date fails with the past-date message and a
future date with valid fields succeeds, at concrete inputs. -/
theorem claim_C1_witness :
    createTraining [] 20 sampleData = Result.failure "過去の日時は指定できません"
    ∧ createTraining [] 0 sampleData =
        Result.success (builtTraining (uuidV4 []) 0 sampleData) :=
  ⟨(claim_C1_create_past_date [] 20 sampleData).1 (by decide),
   (claim_C1_create_past_date [] 0 sampleData).2 (by decide) (by decide)⟩

/-- C2: for every field set satisfying all validation rules,
`createTraining` succeeds and the returned entity has status
`DRAFT`, registered count 0, `createdAt = updatedAt = now`, and an id in
the canonical lowercase `8-4-4-4-12` UUID textual form. -/
theorem claim_C2_create_draft (bytes : List Nat) (now : Int)
    (d : CreateTrainingData) (hdt : now < d.dateTime) (hok : fieldsOk d = true) :
    ∃ t : Training, createTraining bytes now d = Result.success t ∧
      t.status = TrainingStatus.draft now ∧ t.registeredCount = 0 ∧
      t.createdAt = now ∧ t.updatedAt = now ∧
      isCanonicalUuid t.id = true :=
  ⟨builtTraining (uuidV4 bytes) now d,
   createTraining_success bytes now d hdt hok, rfl, rfl, rfl, rfl,
   uuidV4_canonical bytes⟩

/-- Witness for C2 at a concrete valid command. -/
theorem claim_C2_witness :
    ∃ t : Training, createTraining [] 0 sampleData = Result.success t ∧
      t.status = TrainingStatus.draft 0 ∧ t.registeredCount = 0 ∧
      t.createdAt = 0 ∧ t.updatedAt = 0 ∧
      isCanonicalUuid t.id = true :=
  claim_C2_create_draft [] 0 sampleData (by decide) (by decide)

/-- C3 counterexample: the status type declared in
`src/training/domain/types.ts` has no `COMPLETED` variant — no status
value carries that discriminator — so the claimed four-variant set
including `Completed` does not match the code. -/
theorem claim_C3_counterexample :
    ¬ ∃ s : TrainingStatus, statusTag s = "COMPLETED" := by
  rintro ⟨s, h⟩
  cases s <;> simp [statusTag] at h

/-- C3 (amended): the status of every entity is exactly one of the three
variants declared in the source — Draft, Published and Cancelled — and no
other or in-between states exist. -/
theorem claim_C3_amended (s : TrainingStatus) :
    (∃ c, s = TrainingStatus.draft c) ∨ (∃ p, s = TrainingStatus.published p) ∨
      (∃ c r, s = TrainingStatus.cancelled c r) := by
  cases s with
  | draft c => exact Or.inl ⟨c, rfl⟩
  | published p => exact Or.inr (Or.inl ⟨p, rfl⟩)
  | cancelled c r => exact Or.inr (Or.inr ⟨c, r, rfl⟩)

/-- C4 counterexample: the `CANCELLED` variant's `reason` is a bare
`z.string()` in the source, so the schema accepts a cancelled status
whose reason is the empty string (length 0, below any positive minimum) —
refuting the claim that an empty or too-short reason must fail. -/
theorem claim_C4_counterexample :
    trainingStatusFirstError (TrainingStatus.cancelled 0 "") = none ∧
      String.length "" = 0 :=
  ⟨rfl, rfl⟩

/-- C4 (amended): the `CANCELLED` status carries a mandatory `reason`
field, but no minimum length is enforced: a cancelled status with any
reason string, including the empty one, passes the status schema. -/
theorem claim_C4_amended (cancelledAt : Int) (reason : String) :
    trainingStatusFirstError (TrainingStatus.cancelled cancelledAt reason) = none :=
  rfl

/-- C5: boundary behaviour of each bounded field, the other fields held
valid and the date strictly future: title and location succeed at lengths
1 and 100 and fail at 0 and 101; description succeeds at 1 and 1000 and
fails at 0 and 1001; capacity succeeds for every integer in [1, 1000] and
fails at 0 and 1001. -/
theorem claim_C5_boundaries (bytes : List Nat) (now : Int)
    (d : CreateTrainingData) (hdt : now < d.dateTime) (hok : fieldsOk d = true) :
    (∀ s : String, s.length = 0 →
      Result.isSuccess (createTraining bytes now { d with title := s }) = false)
    ∧ (∀ s : String, s.length = 1 ∨ s.length = 100 →
      Result.isSuccess (createTraining bytes now { d with title := s }) = true)
    ∧ (∀ s : String, s.length = 101 →
      Result.isSuccess (createTraining bytes now { d with title := s }) = false)
    ∧ (∀ s : String, s.length = 0 →
      Result.isSuccess (createTraining bytes now { d with description := s }) = false)
    ∧ (∀ s : String, s.length = 1 ∨ s.length = 1000 →
      Result.isSuccess (createTraining bytes now { d with description := s }) = true)
    ∧ (∀ s : String, s.length = 1001 →
      Result.isSuccess (createTraining bytes now { d with description := s }) = false)
    ∧ (∀ s : String, s.length = 0 →
      Result.isSuccess (createTraining bytes now { d with location := s }) = false)
    ∧ (∀ s : String, s.length = 1 ∨ s.length = 100 →
      Result.isSuccess (createTraining bytes now { d with location := s }) = true)
    ∧ (∀ s : String, s.length = 101 →
      Result.isSuccess (createTraining bytes now { d with location := s }) = false)
    ∧ (∀ c : Int, 1 ≤ c → c ≤ 1000 →
      Result.isSuccess (createTraining bytes now { d with capacity := c }) = true)
    ∧ Result.isSuccess (createTraining bytes now { d with capacity := 0 }) = false
    ∧ Result.isSuccess (createTraining bytes now { d with capacity := 1001 }) = false := by
  obtain ⟨⟨t1, t2⟩, ⟨ds1, ds2⟩, ⟨l1, l2⟩, c1, c2⟩ := (fieldsOk_iff d).mp hok
  have fail : ∀ e : CreateTrainingData, now < e.dateTime →
      ¬ (fieldsOk e = true) →
      Result.isSuccess (createTraining bytes now e) = false := by
    intro e h1 h2
    cases hb : Result.isSuccess (createTraining bytes now e)
    · rfl
    · exact absurd ((createTraining_isSuccess_iff bytes now e h1).mp hb) h2
  have succ : ∀ e : CreateTrainingData, now < e.dateTime → fieldsOk e = true →
      Result.isSuccess (createTraining bytes now e) = true := by
    intro e h1 h2
    exact (createTraining_isSuccess_iff bytes now e h1).mpr h2
  refine ⟨?_, ?_, ?_, ?_, ?_, ?_, ?_, ?_, ?_, ?_, ?_, ?_⟩
  · intro s hs
    refine fail _ hdt (fun hfo => ?_)
    rw [fieldsOk_iff] at hfo
    simp at hfo
    omega
  · intro s hs
    refine succ _ hdt ?_
    rw [fieldsOk_iff]
    simp
    rcases hs with hs | hs <;> rw [hs] <;>
      exact ⟨⟨by omega, by omega⟩, ⟨ds1, ds2⟩, ⟨l1, l2⟩, c1, c2⟩
  · intro s hs
    refine fail _ hdt (fun hfo => ?_)
    rw [fieldsOk_iff] at hfo
    simp at hfo
    omega
  · intro s hs
    refine fail _ hdt (fun hfo => ?_)
    rw [fieldsOk_iff] at hfo
    simp at hfo
    omega
  · intro s hs
    refine succ _ hdt ?_
    rw [fieldsOk_iff]
    simp
    rcases hs with hs | hs <;> rw [hs] <;>
      exact ⟨⟨t1, t2⟩, ⟨by omega, by omega⟩, ⟨l1, l2⟩, c1, c2⟩
  · intro s hs
    refine fail _ hdt (fun hfo => ?_)
    rw [fieldsOk_iff] at hfo
    simp at hfo
    omega
  · intro s hs
    refine fail _ hdt (fun hfo => ?_)
    rw [fieldsOk_iff] at hfo
    simp at hfo
    omega
  · intro s hs
    refine succ _ hdt ?_
    rw [fieldsOk_iff]
    simp
    rcases hs with hs | hs <;> rw [hs] <;>
      exact ⟨⟨t1, t2⟩, ⟨ds1, ds2⟩, ⟨by omega, by omega⟩, c1, c2⟩
  · intro s hs
    refine fail _ hdt (fun hfo => ?_)
    rw [fieldsOk_iff] at hfo
    simp at hfo
    omega
  · intro c hc1 hc2
    refine succ _ hdt ?_
    rw [fieldsOk_iff]
    simp
    exact ⟨⟨t1, t2⟩, ⟨ds1, ds2⟩, ⟨l1, l2⟩, hc1, hc2⟩
  · refine fail _ hdt (fun hfo => ?_)
    rw [fieldsOk_iff] at hfo
    simp at hfo
  · refine fail _ hdt (fun hfo => ?_)
    rw [fieldsOk_iff] at hfo
    simp at hfo

/-- Witness for C5 at concrete inputs: with the other fields valid, an
empty title fails and a one-character title succeeds. -/
theorem claim_C5_witness :
    Result.isSuccess (createTraining [] 0 { sampleData with title := "" }) = false
    ∧ Result.isSuccess (createTraining [] 0 { sampleData with title := "x" }) = true := by
  have h := claim_C5_boundaries [] 0 sampleData (by decide) (by decide)
  exact ⟨h.1 "" (by decide), h.2.1 "x" (Or.inl (by decide))⟩

/-- C6: `publish` succeeds exactly from `Draft`, yielding the same entity
with status `Published{publishedAt: now}` (and `updatedAt` refreshed); on
any other status it returns the domain-error message "operation not
allowed in current state: <state>". The operation is a pure function of
its input: it returns a new snapshot and cannot mutate the argument. -/
theorem claim_C6_publish (t : Training) (now : Int) :
    ((∃ c, t.status = TrainingStatus.draft c) →
      publish t now = Result.success
        { t with status := TrainingStatus.published now, updatedAt := now })
    ∧ ((∀ c, t.status ≠ TrainingStatus.draft c) →
      publish t now = Result.failure
        ("operation not allowed in current state: " ++ statusTag t.status)) := by
  constructor
  · rintro ⟨c, hc⟩
    unfold publish
    rw [hc]
  · intro h
    unfold publish
    cases hs : t.status with
    | draft c => exact absurd hs (h c)
    | published p => rfl
    | cancelled c r => rfl

/-- Witness for C6: publishing a concrete draft succeeds and publishing
an already-published entity fails with the wrong-state message. -/
theorem claim_C6_witness :
    publish sampleDraft 5 = Result.success
      { sampleDraft with status := TrainingStatus.published 5, updatedAt := 5 }
    ∧ publish samplePublished 5 = Result.failure
      ("operation not allowed in current state: " ++ statusTag samplePublished.status) :=
  ⟨(claim_C6_publish sampleDraft 5).1 ⟨0, rfl⟩,
   (claim_C6_publish samplePublished 5).2 (fun c h => nomatch h)⟩

/-- C7: whenever domain construction fails validation, the pipeline
handler returns a `ValidationError` carrying the failing message and the
repository state is left exactly as it was — no storage call happens. In
particular an empty title yields the title-required message. -/
theorem claim_C7_no_partial_write (bytes : List Nat) (now : Int)
    (cmd : CreateTrainingData) (st : RepoState) :
    (∀ e, createTraining bytes now cmd = Result.failure e →
      handleCreate bytes now cmd st = (Except.error (AppError.validationError e), st))
    ∧ (cmd.title = "" → now < cmd.dateTime →
      handleCreate bytes now cmd st =
        (Except.error (AppError.validationError "タイトルは必須です"), st)) := by
  constructor
  · intro e h
    unfold handleCreate createTrainingHandler validateAndCreateTraining
    rw [h]
  · intro ht hdt
    have h := createTraining_empty_title bytes now cmd ht hdt
    unfold handleCreate createTrainingHandler validateAndCreateTraining
    rw [h]

/-- Witness for C7: an empty-title command at concrete inputs leaves the
empty repository empty and reports the title message. -/
theorem claim_C7_witness :
    handleCreate [] 0 { sampleData with title := "" } [] =
      (Except.error (AppError.validationError "タイトルは必須です"), []) :=
  (claim_C7_no_partial_write [] 0 { sampleData with title := "" } []).2 rfl (by decide)

/-- C8: the pipeline lifts a synchronous `Result` failure into an
`AppError.ValidationError` with the same message unchanged, and on
success it hands the entity to the storage collaborator and propagates
the collaborator's outcome unchanged, whatever collaborator it is wired
to. -/
theorem claim_C8_pipeline_lifting {σ : Type}
    (save : Training → σ → Except AppError Training × σ)
    (bytes : List Nat) (now : Int) (cmd : CreateTrainingData) (st : σ) :
    (∀ e, createTraining bytes now cmd = Result.failure e →
      createTrainingHandler save bytes now cmd st =
        (Except.error (AppError.validationError e), st))
    ∧ (∀ t, createTraining bytes now cmd = Result.success t →
      createTrainingHandler save bytes now cmd st = save t st) := by
  constructor
  · intro e h
    unfold createTrainingHandler validateAndCreateTraining
    rw [h]
  · intro t h
    unfold createTrainingHandler validateAndCreateTraining
    rw [h]

/-- Witness for C8: with the in-memory repository as collaborator, a
past-date command is lifted to a `ValidationError` with the same message,
and a valid command's outcome is exactly the collaborator's. -/
theorem claim_C8_witness :
    createTrainingHandler repoSave [] 20 sampleData [] =
      (Except.error (AppError.validationError "過去の日時は指定できません"), [])
    ∧ createTrainingHandler repoSave [] 0 sampleData [] =
      repoSave (builtTraining (uuidV4 []) 0 sampleData) [] :=
  ⟨(claim_C8_pipeline_lifting repoSave [] 20 sampleData []).1 _ (by decide),
   (claim_C8_pipeline_lifting repoSave [] 0 sampleData []).2 _ (by decide)⟩

/-- C9: a valid command through the pipeline stores exactly one entity,
retrievable by its id via `findById`, with the stored fields equal to the
command's; storing N entities with pairwise-distinct ids yields exactly N
entities in `findAll`; and `save` overwrites by identifier, so saving the
identical entity twice leaves the store as after one save. -/
theorem claim_C9_storage_roundtrip :
    (∀ (bytes : List Nat) (now : Int) (cmd : CreateTrainingData),
      now < cmd.dateTime → fieldsOk cmd = true →
      ∃ t : Training,
        handleCreate bytes now cmd [] = (Except.ok t, [(t.id, t)]) ∧
        t.title = cmd.title ∧ t.description = cmd.description ∧
        t.dateTime = cmd.dateTime ∧ t.location = cmd.location ∧
        t.capacity = cmd.capacity ∧
        (repoFindById t.id [(t.id, t)]).1 = Except.ok (some t) ∧
        mapValues [(t.id, t)] = [t])
    ∧ (∀ ts : List Training, (ts.map Training.id).Nodup →
        (mapValues (saveMany ts [])).length = ts.length)
    ∧ (∀ (st : RepoState) (t : Training),
        (repoSave t (repoSave t st).2).2 = (repoSave t st).2) := by
  refine ⟨?_, ?_, ?_⟩
  · intro bytes now cmd hdt hok
    refine ⟨builtTraining (uuidV4 bytes) now cmd, ?_, rfl, rfl, rfl, rfl, rfl, ?_, rfl⟩
    · unfold handleCreate createTrainingHandler validateAndCreateTraining
      rw [createTraining_success bytes now cmd hdt hok]
      rfl
    · unfold repoFindById
      simp [mapGet]
  · intro ts hnd
    have h := saveMany_length ts [] hnd (by intro t ht; simp [mapKeys])
    simpa [mapValues] using h
  · intro st t
    unfold repoSave
    simp [mapSet_mapSet]

/-- Witness for C9 at concrete inputs. -/
theorem claim_C9_witness :
    (∃ t : Training,
      handleCreate [] 0 sampleData [] = (Except.ok t, [(t.id, t)]) ∧
      t.title = sampleData.title ∧ t.description = sampleData.description ∧
      t.dateTime = sampleData.dateTime ∧ t.location = sampleData.location ∧
      t.capacity = sampleData.capacity ∧
      (repoFindById t.id [(t.id, t)]).1 = Except.ok (some t) ∧
      mapValues [(t.id, t)] = [t])
    ∧ (mapValues (saveMany [sampleDraft] [])).length = 1
    ∧ (repoSave sampleDraft (repoSave sampleDraft []).2).2 =
        (repoSave sampleDraft []).2 :=
  ⟨claim_C9_storage_roundtrip.1 [] 0 sampleData (by decide) (by decide),
   claim_C9_storage_roundtrip.2.1 [sampleDraft] (by simp),
   claim_C9_storage_roundtrip.2.2 [] sampleDraft⟩

/-- C10: no operation of the in-memory repository ever answers on the
error channel: `save` returns the saved entity on the success channel,
`findAll` returns the stored sequence on the success channel, and
`findById` of a never-saved identifier returns success carrying absence
(`null`) rather than a failure. -/
theorem claim_C10_repo_total (t : Training) (st : RepoState) (key : String) :
    (repoSave t st).1 = Except.ok t
    ∧ (repoFindAll st).1 = Except.ok (mapValues st)
    ∧ (key ∉ mapKeys st → (repoFindById key st).1 = Except.ok none) := by
  refine ⟨rfl, rfl, fun h => ?_⟩
  unfold repoFindById
  rw [mapGet_eq_none st key h]

/-- Witness for C10 at concrete inputs. -/
theorem claim_C10_witness :
    (repoSave sampleDraft []).1 = Except.ok sampleDraft
    ∧ (repoFindAll ([] : RepoState)).1 = Except.ok (mapValues [])
    ∧ (repoFindById "missing" []).1 = Except.ok none := by
  have h := claim_C10_repo_total sampleDraft [] "missing"
  exact ⟨h.1, h.2.1, h.2.2 (by simp [mapKeys])⟩

end TrainingModel
